import Mathlib

/-!
Verification of the urgency recalculation and ordering engine of the
CLI task manager (`src/main.rs`).

Modelling conventions:

* `f32` values are embedded as the inductive type `F`: a finite rational
  (exact real arithmetic idealisation of the finite floats, with
  `F.fin 0` playing `+0.0`), a distinct `negZero` for `-0.0` (equal to
  `+0.0` as a float but with the sign bit set, hence the distinct bit
  pattern `0x80000000`), plus the special values `+inf`, `-inf` and a
  single `nan` payload.  IEEE comparison (`fgt`, `fge`, `fle`, `feq`),
  division (`fdiv`) and multiplication (`fmul`) follow the IEEE-754
  rules on this carrier, including the sign of zero results: any
  comparison involving `nan` is false, `+0.0` and `-0.0` compare equal,
  `x / 0` is `±inf` for `x ≠ 0` and `nan` for `x = 0`.
* Timestamps (`chrono::NaiveDateTime`) are embedded as whole seconds
  (`ℤ`); `Duration::num_seconds` of a difference is then the integer
  difference itself, and `Duration::num_days` is division by 86400
  truncated toward zero (`Int.tdiv`), as in chrono.
* `Local::now()` is passed in explicitly as the parameter `now`.
* The `Option::unwrap` on `start_time` is modelled by returning
  `Option`: a `none` result of `calcTask`/`calculate_urgencies` is the
  panic of the Rust code.
* `Vec::sort_by_key(|s| Reverse(s.urgency.to_bits()))` is a stable sort
  whose key order is *descending bit pattern* of the `f32`.  The bit
  pattern order on our carrier is captured by `bitsLe` (ascending bits):
  non-negative finites ascending, then `+inf`, then `nan` (the positive
  quiet NaN pattern), then negative finites by ascending magnitude, then
  `-inf`.  A stable sort is modelled by insertion sort, which computes
  the same (unique) stable result.
* `eprintln!` error reporting is modelled by returning the list of
  messages printed to stderr alongside the new state; the exact
  formatting of the urgency-range message is elided into a constant.
-/

namespace TM

/-- Embedding of `f32`: finite rationals (`F.fin 0` is `+0.0`), the
distinct negative zero `-0.0`, and the IEEE special values. -/
inductive F
  | fin (q : ℚ)
  | negZero
  | inf
  | neginf
  | nan
deriving DecidableEq, Repr

/-- IEEE division on the `f32` carrier (`elapsed / total` in the code),
with the IEEE sign of zero results. -/
def fdiv : F → F → F
  | F.fin a, F.fin b =>
      if b = 0 then (if a = 0 then F.nan else if 0 < a then F.inf else F.neginf)
      else if a = 0 ∧ b < 0 then F.negZero
      else F.fin (a / b)
  | F.negZero, F.fin b =>
      if b = 0 then F.nan else if 0 < b then F.negZero else F.fin 0
  | F.fin a, F.negZero =>
      if a = 0 then F.nan else if 0 < a then F.neginf else F.inf
  | F.negZero, F.negZero => F.nan
  | F.fin a, F.inf => if a < 0 then F.negZero else F.fin 0
  | F.fin a, F.neginf => if a < 0 then F.fin 0 else F.negZero
  | F.negZero, F.inf => F.negZero
  | F.negZero, F.neginf => F.fin 0
  | F.inf, F.fin b => if b < 0 then F.neginf else F.inf
  | F.neginf, F.fin b => if b < 0 then F.inf else F.neginf
  | F.inf, F.negZero => F.neginf
  | F.neginf, F.negZero => F.inf
  | F.inf, F.inf => F.nan
  | F.inf, F.neginf => F.nan
  | F.neginf, F.inf => F.nan
  | F.neginf, F.neginf => F.nan
  | F.nan, _ => F.nan
  | _, F.nan => F.nan

/-- IEEE multiplication on the `f32` carrier
(`ratio * MAXIMUM_URGENCY`), with the IEEE sign of zero results. -/
def fmul : F → F → F
  | F.fin a, F.fin b =>
      if (a = 0 ∧ b < 0) ∨ (b = 0 ∧ a < 0) then F.negZero else F.fin (a * b)
  | F.negZero, F.fin b => if b < 0 then F.fin 0 else F.negZero
  | F.fin a, F.negZero => if a < 0 then F.fin 0 else F.negZero
  | F.negZero, F.negZero => F.fin 0
  | F.inf, F.fin b => if b = 0 then F.nan else if 0 < b then F.inf else F.neginf
  | F.fin a, F.inf => if a = 0 then F.nan else if 0 < a then F.inf else F.neginf
  | F.neginf, F.fin b => if b = 0 then F.nan else if 0 < b then F.neginf else F.inf
  | F.fin a, F.neginf => if a = 0 then F.nan else if 0 < a then F.neginf else F.inf
  | F.negZero, F.inf => F.nan
  | F.inf, F.negZero => F.nan
  | F.negZero, F.neginf => F.nan
  | F.neginf, F.negZero => F.nan
  | F.inf, F.inf => F.inf
  | F.inf, F.neginf => F.neginf
  | F.neginf, F.inf => F.neginf
  | F.neginf, F.neginf => F.inf
  | F.nan, _ => F.nan
  | _, F.nan => F.nan

/-- IEEE strict greater-than on the `f32` carrier: false whenever `nan`
is involved; `-0.0` compares as zero. -/
def fgt : F → F → Bool
  | F.nan, _ => false
  | _, F.nan => false
  | F.fin a, F.fin b => decide (b < a)
  | F.fin a, F.negZero => decide (0 < a)
  | F.negZero, F.fin b => decide (b < 0)
  | F.negZero, F.negZero => false
  | F.fin _, F.inf => false
  | F.fin _, F.neginf => true
  | F.negZero, F.inf => false
  | F.negZero, F.neginf => true
  | F.inf, F.inf => false
  | F.inf, _ => true
  | F.neginf, _ => false

/-- IEEE greater-or-equal on the `f32` carrier: false whenever `nan` is
involved; `-0.0` compares as zero. -/
def fge : F → F → Bool
  | F.nan, _ => false
  | _, F.nan => false
  | F.fin a, F.fin b => decide (b ≤ a)
  | F.fin a, F.negZero => decide (0 ≤ a)
  | F.negZero, F.fin b => decide (b ≤ 0)
  | F.negZero, F.negZero => true
  | F.fin _, F.inf => false
  | F.fin _, F.neginf => true
  | F.negZero, F.inf => false
  | F.negZero, F.neginf => true
  | F.inf, _ => true
  | F.neginf, F.neginf => true
  | F.neginf, _ => false

/-- IEEE less-or-equal on the `f32` carrier. -/
def fle (a b : F) : Bool := fge b a

/-- IEEE equality (`==`) on the `f32` carrier: `nan` equals nothing,
`+0.0` and `-0.0` are equal. -/
def feq : F → F → Bool
  | F.nan, _ => false
  | _, F.nan => false
  | F.fin a, F.fin b => decide (a = b)
  | F.fin a, F.negZero => decide (a = 0)
  | F.negZero, F.fin b => decide (b = 0)
  | F.negZero, F.negZero => true
  | F.inf, F.inf => true
  | F.neginf, F.neginf => true
  | _, _ => false

/-- Whether an embedded `f32` is a finite value (neither `nan` nor an
infinity). -/
def isFiniteF : F → Bool
  | F.fin _ => true
  | F.negZero => true
  | _ => false

/-- Whether an embedded `f32` is non-negative with a clear sign bit: a
finite value `≥ 0` other than `-0.0`, or `+inf` (in particular neither
`nan` nor `-0.0`). -/
def nonnegF : F → Bool
  | F.fin q => decide (0 ≤ q)
  | F.inf => true
  | _ => false

/-- Rank of an `f32` bit pattern, viewed as an unsigned 32-bit integer:
non-negative finites (sign bit clear) come first, then `+inf`
(`0x7F800000`), then the positive quiet `nan` patterns, then `-0.0`
(`0x80000000`), then the other sign-bit-set (negative) finites, then
`-inf` (`0xFF800000`). -/
def bitsRank : F → ℕ
  | F.fin q => if q < 0 then 4 else 0
  | F.inf => 1
  | F.nan => 2
  | F.negZero => 3
  | F.neginf => 5

/-- Within a rank, `f32` bit patterns of finite values are ordered by
magnitude. -/
def bitsVal : F → ℚ
  | F.fin q => if q < 0 then -q else q
  | _ => 0

/-- `bitsLe a b` iff `a.to_bits() <= b.to_bits()` as `u32`. -/
def bitsLe (a b : F) : Bool :=
  decide (bitsRank a < bitsRank b) ||
    (decide (bitsRank a = bitsRank b) && decide (bitsVal a ≤ bitsVal b))

/-- `Status` enum from the source. -/
inductive Status
  | Inactive
  | Active
  | Done
deriving DecidableEq, Repr

/-- `Task` struct from the source; timestamps in whole seconds. -/
structure Task where
  title : String
  description : String
  status : Status
  urgency : F
  start_time : Option ℤ
  due_time : Option ℤ
deriving DecidableEq, Repr

/-- `TaskManager` struct from the source. -/
structure TaskManager where
  tasks : List Task
deriving DecidableEq, Repr

def URGENCY_MULTIPLIER : F := F.fin (1 / 2)

def DEFAULT_URGENCY : F := F.fin 3

def MINIMUM_URGENCY : F := F.fin 0

def MAXIMUM_URGENCY : F := F.fin 10

def ERR_INVALID_ID : String := "Invalid ID"

/-- The urgency-range message of `set_urgency` (interpolation of the
offending value elided). -/
def ERR_URGENCY_RANGE : String := "Urgency must be between 0 and 10"

/-- Deadline-ratio branch of `calculate_urgencies`:
`(now - start).num_seconds() as f32 / (due - start).num_seconds() as f32
* MAXIMUM_URGENCY`. -/
def deadlineFloor (now start due : ℤ) : F :=
  fmul (fdiv (F.fin ((now - start : ℤ) : ℚ)) (F.fin ((due - start : ℤ) : ℚ)))
    MAXIMUM_URGENCY

/-- Age-based branch of `calculate_urgencies`:
`(now - start).num_days() as f32 * URGENCY_MULTIPLIER`, then clamped to
`MAXIMUM_URGENCY` when it exceeds it. -/
def ageFloor (now start : ℤ) : F :=
  let days : ℤ := Int.tdiv (now - start) 86400
  let minimum_urgency : F := fmul (F.fin (days : ℚ)) URGENCY_MULTIPLIER
  if fgt minimum_urgency MAXIMUM_URGENCY then MAXIMUM_URGENCY else minimum_urgency

/-- Body of the `calculate_urgencies` loop for one task.  `none` models
the panic of `task.start_time.unwrap()`. -/
def calcTask (now : ℤ) (t : Task) : Option Task :=
  if t.status = Status.Done then some t
  else
    match t.due_time with
    | some due =>
        match t.start_time with
        | some start =>
            let minimum_urgency := deadlineFloor now start due
            some (if fgt minimum_urgency t.urgency then
              { t with urgency := minimum_urgency } else t)
        | none => none
    | none =>
        match t.start_time with
        | some start =>
            let minimum_urgency := ageFloor now start
            some (if fgt minimum_urgency t.urgency then
              { t with urgency := minimum_urgency } else t)
        | none => none

/-- `TaskManager::calculate_urgencies`, iterating the loop body over the
collection. -/
def calculate_urgencies (now : ℤ) : List Task → Option (List Task)
  | [] => some []
  | t :: ts =>
      match calcTask now t, calculate_urgencies now ts with
      | some t', some ts' => some (t' :: ts')
      | _, _ => none

/-- The sort relation of `sort_by_urgencies`: `a` may precede `b` iff
`Reverse(a.urgency.to_bits()) <= Reverse(b.urgency.to_bits())`, i.e. iff
`b`'s bit pattern is at most `a`'s. -/
def sortRel (a b : Task) : Prop := bitsLe b.urgency a.urgency = true

instance : DecidableRel sortRel := fun a b => by
  unfold sortRel; exact instDecidableEqBool _ _

/-- `TaskManager::sort_by_urgencies`:
`tasks.sort_by_key(|s| Reverse(s.urgency.to_bits()))`, a stable sort,
modelled by the (stable) insertion sort over `sortRel`. -/
def sort_by_urgencies (ts : List Task) : List Task :=
  List.insertionSort sortRel ts

/-- The recompute-and-sort step run at the start of every invocation:
`calculate_urgencies` followed by `sort_by_urgencies`. -/
def recompute_and_sort (now : ℤ) (ts : List Task) : Option (List Task) :=
  (calculate_urgencies now ts).map sort_by_urgencies

/-- Everything of a task except its urgency (used to state frame
conditions). -/
def frameOf (t : Task) : String × String × Status × Option ℤ × Option ℤ :=
  (t.title, t.description, t.status, t.start_time, t.due_time)

/-- Bool check that every adjacent pair of the list satisfies
`tasks[i].urgency >= tasks[i+1].urgency` (IEEE `>=`). -/
def adjacentOK : List Task → Bool
  | a :: b :: l => fge a.urgency b.urgency && adjacentOK (b :: l)
  | _ => true

/-- Replace the element at index `id` (in-bounds assignment
`self.tasks[id] = ...` after a `verify_id` guard). -/
def listModify {α : Type} (f : α → α) : ℕ → List α → List α
  | _, [] => []
  | 0, a :: l => f a :: l
  | n + 1, a :: l => a :: listModify f n l

/-- `TaskManager::verify_id`. -/
def verify_id (m : TaskManager) (id : ℕ) : Bool :=
  decide (id < m.tasks.length)

/-- `TaskManager::set_task_name`; the second component is the list of
stderr messages. -/
def set_task_name (m : TaskManager) (id : ℕ) (new_name : String) :
    TaskManager × List String :=
  if verify_id m id then
    (⟨listModify (fun t => { t with title := new_name }) id m.tasks⟩, [])
  else (m, [ERR_INVALID_ID])

/-- `TaskManager::set_task_description`. -/
def set_task_description (m : TaskManager) (id : ℕ) (new_description : String) :
    TaskManager × List String :=
  if verify_id m id then
    (⟨listModify (fun t => { t with description := new_description }) id m.tasks⟩, [])
  else (m, [ERR_INVALID_ID])

/-- `TaskManager::set_task_status`. -/
def set_task_status (m : TaskManager) (id : ℕ) (new_status : Status) :
    TaskManager × List String :=
  if verify_id m id then
    (⟨listModify (fun t => { t with status := new_status }) id m.tasks⟩, [])
  else (m, [ERR_INVALID_ID])

/-- `TaskManager::set_urgency` (the range check uses the IEEE `>=` and
`<=` of the source). -/
def set_urgency (m : TaskManager) (id : ℕ) (new_urgency : F) :
    TaskManager × List String :=
  if verify_id m id then
    if fge new_urgency MINIMUM_URGENCY && fle new_urgency MAXIMUM_URGENCY then
      (⟨listModify (fun t => { t with urgency := new_urgency }) id m.tasks⟩, [])
    else (m, [ERR_URGENCY_RANGE])
  else (m, [ERR_INVALID_ID])

/-- `TaskManager::set_due_date`. -/
def set_due_date (m : TaskManager) (id : ℕ) (new_due_date : ℤ) :
    TaskManager × List String :=
  if verify_id m id then
    (⟨listModify (fun t => { t with due_time := some new_due_date }) id m.tasks⟩, [])
  else (m, [ERR_INVALID_ID])

/-- `TaskManager::remove_task_by_id` (`Vec::remove`). -/
def remove_task_by_id (m : TaskManager) (id : ℕ) :
    TaskManager × List String :=
  if verify_id m id then (⟨m.tasks.eraseIdx id⟩, [])
  else (m, [ERR_INVALID_ID])

/-- Convenience constructor for concrete tasks in witnesses and
counterexamples (title and description empty). -/
def mkTask (st : Status) (u : F) (s d : Option ℤ) : Task :=
  ⟨"", "", st, u, s, d⟩

/-! ### Helper lemmas about the bit-pattern order -/

lemma bitsLe_refl (x : F) : bitsLe x x = true := by
  simp [bitsLe]

lemma bitsLe_total (x y : F) : bitsLe x y = true ∨ bitsLe y x = true := by
  simp only [bitsLe, Bool.or_eq_true, Bool.and_eq_true, decide_eq_true_eq]
  rcases Nat.lt_trichotomy (bitsRank x) (bitsRank y) with h | h | h
  · exact Or.inl (Or.inl h)
  · rcases le_total (bitsVal x) (bitsVal y) with hv | hv
    · exact Or.inl (Or.inr ⟨h, hv⟩)
    · exact Or.inr (Or.inr ⟨h.symm, hv⟩)
  · exact Or.inr (Or.inl h)

lemma bitsLe_trans {x y z : F} (hxy : bitsLe x y = true) (hyz : bitsLe y z = true) :
    bitsLe x z = true := by
  simp only [bitsLe, Bool.or_eq_true, Bool.and_eq_true, decide_eq_true_eq] at *
  rcases hxy with h1 | ⟨h1, v1⟩ <;> rcases hyz with h2 | ⟨h2, v2⟩
  · exact Or.inl (h1.trans h2)
  · exact Or.inl (h2 ▸ h1)
  · exact Or.inl (h1 ▸ h2)
  · exact Or.inr ⟨h1.trans h2, v1.trans v2⟩

instance : IsTotal Task sortRel :=
  ⟨fun a b => (bitsLe_total b.urgency a.urgency).imp id id⟩

instance : IsTrans Task sortRel :=
  ⟨fun _ _ _ hab hbc => bitsLe_trans hbc hab⟩

/-- On non-negative (non-`nan`) values, the descending bit-pattern order
agrees with the IEEE `>=` comparison. -/
lemma fge_of_bitsLe {x y : F} (hx : nonnegF x = true) (hy : nonnegF y = true)
    (h : bitsLe y x = true) : fge x y = true := by
  cases x <;> cases y <;>
    simp_all [nonnegF, bitsLe, bitsRank, bitsVal, fge, decide_eq_true_eq] <;>
    split_ifs at h <;> simp_all <;> linarith

/-! ### Helper lemmas about the recompute step -/

lemma calcTask_done {now : ℤ} {t : Task} (h : t.status = Status.Done) :
    calcTask now t = some t := by
  simp [calcTask, h]

lemma calcTask_urgency {now : ℤ} {t t' : Task} (h : calcTask now t = some t') :
    t'.urgency = t.urgency ∨ fgt t'.urgency t.urgency = true := by
  unfold calcTask at h
  split_ifs at h with hd
  · exact Or.inl (congrArg Task.urgency (Option.some.inj h).symm)
  · rcases ht : t.due_time with _ | due <;> rcases hs : t.start_time with _ | start <;>
      simp only [ht, hs] at h
    · exact absurd h (by simp)
    · cases hgt : fgt (ageFloor now start) t.urgency <;> simp [hgt] at h
      · exact Or.inl (congrArg Task.urgency h.symm)
      · exact Or.inr (h ▸ hgt)
    · exact absurd h (by simp)
    · cases hgt : fgt (deadlineFloor now start due) t.urgency <;> simp [hgt] at h
      · exact Or.inl (congrArg Task.urgency h.symm)
      · exact Or.inr (h ▸ hgt)

lemma calcTask_frame {now : ℤ} {t t' : Task} (h : calcTask now t = some t') :
    frameOf t' = frameOf t := by
  unfold calcTask at h
  split_ifs at h with hd
  · exact congrArg frameOf (Option.some.inj h).symm
  · rcases ht : t.due_time with _ | due <;> rcases hs : t.start_time with _ | start <;>
      simp only [ht, hs] at h
    · exact absurd h (by simp)
    · cases hgt : fgt (ageFloor now start) t.urgency <;> simp [hgt] at h <;>
        simp [← h, frameOf, hs, ht]
    · exact absurd h (by simp)
    · cases hgt : fgt (deadlineFloor now start due) t.urgency <;> simp [hgt] at h <;>
        simp [← h, frameOf, hs, ht]

lemma calcTask_isSome (now : ℤ) {t : Task} (h : t.start_time.isSome = true) :
    (calcTask now t).isSome = true := by
  unfold calcTask
  rcases hs : t.start_time with _ | start
  · rw [hs] at h; exact absurd h (by simp)
  · split_ifs <;> rcases t.due_time with _ | due <;> simp

/-- If a value is IEEE-strictly-greater than a non-negative value, it is
itself non-negative. -/
lemma nonnegF_of_fgt {u v : F} (hu : nonnegF u = true) (h : fgt v u = true) :
    nonnegF v = true := by
  cases u <;> cases v <;> simp_all [nonnegF, fgt, decide_eq_true_eq] <;> linarith

lemma calcTask_nonneg {now : ℤ} {t t' : Task} (hu : nonnegF t.urgency = true)
    (h : calcTask now t = some t') : nonnegF t'.urgency = true := by
  rcases calcTask_urgency h with heq | hgt
  · rw [heq]; exact hu
  · exact nonnegF_of_fgt hu hgt

lemma forall2_of_calc {now : ℤ} : ∀ {ts ts' : List Task},
    calculate_urgencies now ts = some ts' →
    List.Forall₂ (fun t t' => calcTask now t = some t') ts ts'
  | [], ts', h => by
      simp only [calculate_urgencies] at h
      rw [← Option.some.inj h]; exact List.Forall₂.nil
  | t :: ts, ts', h => by
      simp only [calculate_urgencies] at h
      rcases hc : calcTask now t with _ | t₀ <;> rw [hc] at h
      · exact absurd h (by simp)
      · rcases hr : calculate_urgencies now ts with _ | ts₀ <;> rw [hr] at h
        · exact absurd h (by simp)
        · rw [← Option.some.inj h]
          exact List.Forall₂.cons hc (forall2_of_calc hr)

lemma forall2_nonneg {now : ℤ} : ∀ {ts ts' : List Task},
    List.Forall₂ (fun t t' => calcTask now t = some t') ts ts' →
    (∀ t ∈ ts, nonnegF t.urgency = true) →
    ∀ t' ∈ ts', nonnegF t'.urgency = true := by
  intro ts ts' hf
  induction hf with
  | nil => intro _ t' ht'; exact absurd ht' (by simp)
  | cons hc _ ih =>
      intro hnn t' ht'
      rcases List.mem_cons.mp ht' with rfl | hmem
      · exact calcTask_nonneg (hnn _ (List.mem_cons_self _ _)) hc
      · exact ih (fun t ht => hnn t (List.mem_cons_of_mem _ ht)) _ hmem

lemma calc_nonneg_all {now : ℤ} {ts ts' : List Task}
    (hnn : ∀ t ∈ ts, nonnegF t.urgency = true)
    (h : calculate_urgencies now ts = some ts') :
    ∀ t' ∈ ts', nonnegF t'.urgency = true :=
  forall2_nonneg (forall2_of_calc h) hnn

lemma map_frameOf_eq {ts ts' : List Task}
    (h : List.Forall₂ (fun t t' => frameOf t' = frameOf t) ts ts') :
    ts'.map frameOf = ts.map frameOf := by
  induction h with
  | nil => rfl
  | cons hf _ ih => simp [hf, ih]

/-- Stability of `orderedInsert` for the filter at a fixed urgency
value: skipped elements have strictly larger bit patterns, hence a
different urgency. -/
lemma filter_orderedInsert_urgency (u : F) (a : Task) : ∀ m : List Task,
    (List.orderedInsert sortRel a m).filter (fun x => decide (x.urgency = u)) =
      if a.urgency = u then
        a :: m.filter (fun x => decide (x.urgency = u))
      else m.filter (fun x => decide (x.urgency = u))
  | [] => by
      simp only [List.orderedInsert, List.filter]
      split_ifs with h <;> simp [h]
  | b :: m => by
      simp only [List.orderedInsert]
      by_cases hr : sortRel a b
      · rw [if_pos hr]
        split_ifs with h <;> simp [List.filter, h]
      · rw [if_neg hr]
        have hne : ¬ b.urgency = a.urgency := fun hbu => hr (by
          unfold sortRel; rw [hbu]; exact bitsLe_refl _)
        split_ifs with h
        · by_cases hb : b.urgency = u
          · exact absurd (hb.trans h.symm) hne
          · rw [List.filter_cons_of_neg (by simp [hb]),
              filter_orderedInsert_urgency u a m, if_pos h,
              List.filter_cons_of_neg (by simp [hb])]
        · by_cases hb : b.urgency = u
          · rw [List.filter_cons_of_pos (by simp [hb]),
              filter_orderedInsert_urgency u a m, if_neg h,
              List.filter_cons_of_pos (by simp [hb])]
          · rw [List.filter_cons_of_neg (by simp [hb]),
              filter_orderedInsert_urgency u a m, if_neg h,
              List.filter_cons_of_neg (by simp [hb])]

lemma fgt_nan (x : F) : fgt F.nan x = false := by cases x <;> rfl

lemma fdiv_fin_ne (a b : ℚ) (ha : a ≠ 0) (hb : b ≠ 0) :
    fdiv (F.fin a) (F.fin b) = F.fin (a / b) := by
  simp [fdiv, ha, hb]

lemma fmul_fin (a b : ℚ) (ha : a ≠ 0) (hb : b ≠ 0) :
    fmul (F.fin a) (F.fin b) = F.fin (a * b) := by
  simp [fmul, ha, hb]

lemma fmul_nan (x : F) : fmul F.nan x = F.nan := by cases x <;> rfl

lemma fdiv_zero_zero : fdiv (F.fin 0) (F.fin 0) = F.nan := by
  simp [fdiv]

/-- The age-based floor is clamped: it never exceeds `MAXIMUM_URGENCY`. -/
lemma ageFloor_le_max (now start : ℤ) :
    fle (ageFloor now start) MAXIMUM_URGENCY = true := by
  simp only [ageFloor, URGENCY_MULTIPLIER, MAXIMUM_URGENCY, fmul]
  split_ifs with h0 hgt hgt
  · simp [fle, fge]
  · simp [fle, fge]
  · simp [fle, fge]
  · simp only [fle, fge, fgt, decide_eq_true_eq, Bool.not_eq_true,
      decide_eq_false_iff_not, not_lt] at hgt ⊢
    exact hgt

/-! ### Claims -/

/-- Claim C1: after `calculate_urgencies`, every task whose status is
not Done has an urgency that is its old urgency or strictly greater
(the engine only raises the stored value to the computed floor, never
lowers it), and every Done task is left exactly unchanged. -/
theorem C1_monotonic_floor (now : ℤ) (ts ts' : List Task)
    (h : calculate_urgencies now ts = some ts') :
    List.Forall₂ (fun t t' =>
      (t.status ≠ Status.Done →
        t'.urgency = t.urgency ∨ fgt t'.urgency t.urgency = true) ∧
      (t.status = Status.Done → t' = t)) ts ts' := by
  refine (forall2_of_calc h).imp ?_
  intro t t' hc
  refine ⟨fun _ => calcTask_urgency hc, fun hd => ?_⟩
  rw [calcTask_done hd] at hc
  exact (Option.some.inj hc).symm

theorem C1_monotonic_floor_witness :
    List.Forall₂ (fun t t' =>
      (t.status ≠ Status.Done →
        t'.urgency = t.urgency ∨ fgt t'.urgency t.urgency = true) ∧
      (t.status = Status.Done → t' = t))
      [mkTask Status.Inactive (F.fin 3) (some 0) none,
       mkTask Status.Done (F.fin 7) (some 0) none]
      [mkTask Status.Inactive (F.fin 4) (some 0) none,
       mkTask Status.Done (F.fin 7) (some 0) none] :=
  C1_monotonic_floor (8 * 86400) _ _ (by with_unfolding_all decide)

/-- Claim C3 counterexample: `+0.0` and `-0.0` are equal as
floating-point values (IEEE `==` is true) but have distinct bit
patterns (`0x00000000` vs `0x80000000`), and the sign-bit-set pattern
of `-0.0` is the larger, so `sort_by_urgencies` reorders
`[Done +0.0, Done -0.0]` to `[-0.0, +0.0]`: a pair of tasks with equal
urgency values does NOT retain its relative pre-sort order. -/
theorem C3_counterexample :
    feq (F.fin 0) F.negZero = true ∧
    sort_by_urgencies
      [mkTask Status.Done (F.fin 0) (some 0) none,
       mkTask Status.Done F.negZero (some 0) none] =
      [mkTask Status.Done F.negZero (some 0) none,
       mkTask Status.Done (F.fin 0) (some 0) none] := by
  with_unfolding_all decide

/-- Claim C3 (amended): `sort_by_urgencies` is stable with respect to
its own sort key, the raw bit pattern: for every urgency value, the
subsequence of tasks holding exactly that urgency (same value and same
bit pattern) is unchanged by the sort, so any two tasks with
bit-identical urgencies keep their relative pre-sort order.  Pairs that
are merely equal as floats but differ in bit pattern (`+0.0` vs `-0.0`)
are exempt: the sort orders them by their distinct keys. -/
theorem C3_sort_stability (ts : List Task) (u : F) :
    (sort_by_urgencies ts).filter (fun t => decide (t.urgency = u)) =
      ts.filter (fun t => decide (t.urgency = u)) := by
  induction ts with
  | nil => rfl
  | cons a ts ih =>
      simp only [sort_by_urgencies, List.insertionSort] at ih ⊢
      rw [filter_orderedInsert_urgency]
      split_ifs with h
      · rw [ih, List.filter_cons_of_pos (by simp [h])]
      · rw [ih, List.filter_cons_of_neg (by simp [h])]

/-- Claim C4 counterexample: a non-Done task with
`due_time = start_time = 0` recomputed at `now = 1` (one second later)
gets `ratio = 1 / 0 = +inf`, which exceeds the stored urgency `3.0` and
is stored: the resulting urgency is not finite, refuting the claim for
arbitrary `now`. -/
theorem C4_counterexample :
    (calcTask 1 (mkTask Status.Inactive (F.fin 3) (some 0) (some 0))).map
      (fun t => isFiniteF t.urgency) = some false := by
  with_unfolding_all decide

/-- Claim C4 (amended): for a non-Done task with `due_time = start_time`
and a finite stored urgency, in the scenario `now = start_time` the
division is `0 / 0 = NaN`, the `NaN` floor never wins the `>`
comparison, and the task (hence its finite urgency) is exactly
unchanged. -/
theorem C4_degenerate_duration (t : Task) (s : ℤ) (q : ℚ)
    (h1 : t.status ≠ Status.Done) (h2 : t.start_time = some s)
    (h3 : t.due_time = some s) (h4 : t.urgency = F.fin q) :
    calcTask s t = some t ∧ isFiniteF t.urgency = true := by
  have hf : deadlineFloor s s s = F.nan := by
    unfold deadlineFloor
    have h0 : ((s - s : ℤ) : ℚ) = 0 := by push_cast; ring
    rw [h0, fdiv_zero_zero, fmul_nan]
  refine ⟨?_, by rw [h4]; rfl⟩
  unfold calcTask
  rw [if_neg h1, h3, h2]
  dsimp only
  rw [hf, fgt_nan]
  simp

theorem C4_degenerate_duration_witness :
    calcTask 5 (mkTask Status.Inactive (F.fin 3) (some 5) (some 5)) =
      some (mkTask Status.Inactive (F.fin 3) (some 5) (some 5)) ∧
    isFiniteF (mkTask Status.Inactive (F.fin 3) (some 5) (some 5)).urgency = true :=
  C4_degenerate_duration _ 5 3 (by decide) rfl rfl rfl

/-- Claim C5 counterexample: a task with no due date whose stored
urgency is already `12.0` keeps that urgency after recompute (the floor
is only ever raised to, never lowered to), so its urgency is not
`<= 10.0`, refuting the claim for arbitrary stored urgency. -/
theorem C5_counterexample :
    (calcTask 0 (mkTask Status.Inactive (F.fin 12) (some 0) none)).map
      (fun t => fle t.urgency MAXIMUM_URGENCY) = some false := by
  with_unfolding_all decide

/-- Claim C5 (amended): for every task with no due date whose urgency
before recompute is at most `10.0`, the urgency after recompute is at
most `10.0` regardless of elapsed age; the age-based floor itself is
hard-capped at `MAXIMUM_URGENCY`. -/
theorem C5_age_cap (now : ℤ) (t t' : Task) (h1 : t.due_time = none)
    (h2 : fle t.urgency MAXIMUM_URGENCY = true)
    (h3 : calcTask now t = some t') :
    fle t'.urgency MAXIMUM_URGENCY = true := by
  unfold calcTask at h3
  split_ifs at h3 with hd
  · obtain rfl := Option.some.inj h3
    exact h2
  · rw [h1] at h3
    rcases hs : t.start_time with _ | start <;> rw [hs] at h3
    · exact absurd h3 (by simp)
    · cases hgt : fgt (ageFloor now start) t.urgency <;> simp [hgt] at h3
      · rw [← h3]; exact h2
      · rw [← h3]
        exact ageFloor_le_max now start

theorem C5_age_cap_witness :
    fle (mkTask Status.Inactive (F.fin 4) (some 0) none).urgency
      MAXIMUM_URGENCY = true :=
  C5_age_cap (8 * 86400) (mkTask Status.Inactive (F.fin 3) (some 0) none)
    (mkTask Status.Inactive (F.fin 4) (some 0) none) rfl
    (by with_unfolding_all decide) (by with_unfolding_all decide)

/-- Claim C2 counterexample: urgencies are sorted by descending raw
`f32` bit pattern, and a negative `f32` has its sign bit set, hence a
larger bit pattern than any non-negative one.  A collection holding a
Done task with urgency `-1.0` and one with urgency `5.0` is recomputed
(unchanged, both Done) and sorted with `-1.0` first, so the adjacent
pair violates `tasks[0].urgency >= tasks[1].urgency`. -/
theorem C2_counterexample :
    (recompute_and_sort 0
      [mkTask Status.Done (F.fin (-1)) (some 0) none,
       mkTask Status.Done (F.fin 5) (some 0) none]).map adjacentOK =
      some false := by
  with_unfolding_all decide

/-- Claim C2 (amended): for every collection all of whose stored
urgencies are non-negative with a clear sign bit (not NaN, not negative
and not `-0.0`), after `calculate_urgencies` followed by
`sort_by_urgencies` every adjacent pair of tasks satisfies
`tasks[i].urgency >= tasks[i+1].urgency`: on sign-bit-clear values the
descending-bit-pattern order used by the sort agrees with the numeric
order.  (`-0.0` must be excluded: it is non-negative as a float, yet
its sign-bit-set pattern sorts it ahead of every positive value.) -/
theorem C2_sorted_desc (now : ℤ) (ts ts' : List Task)
    (hnn : ∀ t ∈ ts, nonnegF t.urgency = true)
    (h : calculate_urgencies now ts = some ts')
    (i : ℕ) (hi : i + 1 < (sort_by_urgencies ts').length) :
    fge ((sort_by_urgencies ts').get ⟨i, Nat.lt_of_succ_lt hi⟩).urgency
      ((sort_by_urgencies ts').get ⟨i + 1, hi⟩).urgency = true := by
  have hsorted : (sort_by_urgencies ts').Sorted sortRel :=
    List.sorted_insertionSort sortRel ts'
  have hrel : sortRel ((sort_by_urgencies ts').get ⟨i, Nat.lt_of_succ_lt hi⟩)
      ((sort_by_urgencies ts').get ⟨i + 1, hi⟩) :=
    hsorted.rel_get_of_lt (by simp)
  have hperm : List.Perm (sort_by_urgencies ts') ts' :=
    List.perm_insertionSort sortRel ts'
  have h1 : (sort_by_urgencies ts').get ⟨i, Nat.lt_of_succ_lt hi⟩ ∈ ts' :=
    hperm.mem_iff.mp (List.get_mem _ _ _)
  have h2 : (sort_by_urgencies ts').get ⟨i + 1, hi⟩ ∈ ts' :=
    hperm.mem_iff.mp (List.get_mem _ _ _)
  exact fge_of_bitsLe (calc_nonneg_all hnn h _ h1) (calc_nonneg_all hnn h _ h2) hrel

theorem C2_sorted_desc_witness :
    fge ((sort_by_urgencies
        [mkTask Status.Done (F.fin 5) (some 0) none,
         mkTask Status.Done (F.fin 3) (some 0) none]).get
        ⟨0, by with_unfolding_all decide⟩).urgency
      ((sort_by_urgencies
        [mkTask Status.Done (F.fin 5) (some 0) none,
         mkTask Status.Done (F.fin 3) (some 0) none]).get
        ⟨0 + 1, by with_unfolding_all decide⟩).urgency = true :=
  C2_sorted_desc 0
    [mkTask Status.Done (F.fin 5) (some 0) none,
     mkTask Status.Done (F.fin 3) (some 0) none]
    [mkTask Status.Done (F.fin 5) (some 0) none,
     mkTask Status.Done (F.fin 3) (some 0) none]
    (by with_unfolding_all decide) (by with_unfolding_all decide) 0
    (by with_unfolding_all decide)

/-- Claim C6: a non-Done task with `start_time = T`,
`due_time = T + 1 day` and a finite stored urgency, recomputed at
`now = T + 10 days`, ends with urgency strictly greater than `10.0`:
the deadline-ratio floor is `10 * MAXIMUM_URGENCY = 100` and no clamp is
applied, so overdue tasks escalate past the nominal maximum. -/
theorem C6_overdue_uncapped (T : ℤ) (q : ℚ) (t : Task)
    (h1 : t.status ≠ Status.Done) (h2 : t.start_time = some T)
    (h3 : t.due_time = some (T + 86400)) (h4 : t.urgency = F.fin q) :
    ∃ t', calcTask (T + 864000) t = some t' ∧
      fgt t'.urgency MAXIMUM_URGENCY = true := by
  have hf : deadlineFloor (T + 864000) T (T + 86400) = F.fin 100 := by
    unfold deadlineFloor MAXIMUM_URGENCY
    have e1 : ((T + 864000 - T : ℤ) : ℚ) = 864000 := by push_cast; ring
    have e2 : ((T + 86400 - T : ℤ) : ℚ) = 86400 := by push_cast; ring
    rw [e1, e2, fdiv_fin_ne _ _ (by norm_num) (by norm_num),
      fmul_fin _ _ (by norm_num) (by norm_num)]
    norm_num
  unfold calcTask
  rw [if_neg h1, h3, h2]
  dsimp only
  rw [hf, h4]
  rcases le_or_lt 100 q with hq | hq
  · have hc : fgt (F.fin 100) (F.fin q) = false := by
      simp only [fgt, decide_eq_false_iff_not, not_lt]
      linarith
    rw [hc]
    refine ⟨t, by simp, ?_⟩
    rw [h4]
    simp only [fgt, MAXIMUM_URGENCY, decide_eq_true_eq]
    linarith
  · have hc : fgt (F.fin 100) (F.fin q) = true := by
      simp only [fgt, decide_eq_true_eq]
      exact hq
    rw [hc]
    refine ⟨{ t with urgency := F.fin 100 }, ?_, ?_⟩
    · simp [h2, h3]
    · show fgt (F.fin 100) MAXIMUM_URGENCY = true
      simp only [fgt, MAXIMUM_URGENCY, decide_eq_true_eq]
      norm_num

theorem C6_overdue_uncapped_witness :
    ∃ t', calcTask (0 + 864000)
        (mkTask Status.Inactive (F.fin 3) (some 0) (some 86400)) = some t' ∧
      fgt t'.urgency MAXIMUM_URGENCY = true :=
  C6_overdue_uncapped 0 3
    (mkTask Status.Inactive (F.fin 3) (some 0) (some 86400))
    (by decide) rfl (by decide) rfl

/-- Claim C7 counterexample: with `due_time = -10 < start_time = 0 <
now = 10` the floor is the negative value `-10.0`; a stored urgency of
`-100.0` is strictly below it, so the "inert" negative floor DOES raise
the stored urgency, refuting "the urgency is unchanged" for arbitrary
stored urgency. -/
theorem C7_counterexample :
    (calcTask 10 (mkTask Status.Inactive (F.fin (-100)) (some 0)
        (some (-10)))).map
      (fun x => decide (x.urgency = (mkTask Status.Inactive (F.fin (-100))
        (some 0) (some (-10))).urgency)) = some false := by
  with_unfolding_all decide

/-- Claim C7 (amended): for every non-Done task with
`due_time < start_time < now` whose stored urgency is non-negative
(`0.0 <= urgency` in the IEEE sense), the deadline-ratio branch computes
a strictly negative finite floor, and that negative floor never wins the
`>` comparison against the non-negative stored urgency: the task is
unchanged by recompute. -/
theorem C7_backward_due_inert (now s d : ℤ) (t : Task)
    (h1 : t.status ≠ Status.Done) (h2 : t.start_time = some s)
    (h3 : t.due_time = some d) (h4 : d < s) (h5 : s < now)
    (h6 : fle MINIMUM_URGENCY t.urgency = true) :
    (∃ q : ℚ, deadlineFloor now s d = F.fin q ∧ q < 0) ∧
      calcTask now t = some t := by
  have hden : ((d - s : ℤ) : ℚ) < 0 := Int.cast_lt_zero.mpr (by omega)
  have hd0 : ((d - s : ℤ) : ℚ) ≠ 0 := ne_of_lt hden
  have hnum : (0 : ℚ) < ((now - s : ℤ) : ℚ) := Int.cast_pos.mpr (by omega)
  have hratio : ((now - s : ℤ) : ℚ) / ((d - s : ℤ) : ℚ) < 0 :=
    div_neg_of_pos_of_neg hnum hden
  obtain ⟨q, hq, hqneg⟩ : ∃ q : ℚ, deadlineFloor now s d = F.fin q ∧ q < 0 := by
    refine ⟨((now - s : ℤ) : ℚ) / ((d - s : ℤ) : ℚ) * 10, ?_, ?_⟩
    · unfold deadlineFloor MAXIMUM_URGENCY
      rw [fdiv_fin_ne _ _ (ne_of_gt hnum) hd0,
        fmul_fin _ _ (ne_of_lt hratio) (by norm_num)]
    · linarith
  refine ⟨⟨q, hq, hqneg⟩, ?_⟩
  unfold calcTask
  rw [if_neg h1, h3, h2]
  dsimp only
  rw [hq]
  have hc : fgt (F.fin q) t.urgency = false := by
    rcases hu : t.urgency with q' | _ | _ | _ | _ <;> rw [hu] at h6 <;>
      simp_all [fle, fge, fgt, MINIMUM_URGENCY] <;> linarith
  rw [hc]
  simp

theorem C7_backward_due_inert_witness :
    (∃ q : ℚ, deadlineFloor 10 0 (-10) = F.fin q ∧ q < 0) ∧
      calcTask 10 (mkTask Status.Inactive (F.fin 3) (some 0) (some (-10))) =
        some (mkTask Status.Inactive (F.fin 3) (some 0) (some (-10))) :=
  C7_backward_due_inert 10 0 (-10)
    (mkTask Status.Inactive (F.fin 3) (some 0) (some (-10)))
    (by decide) rfl rfl (by decide) (by decide)
    (by with_unfolding_all decide)

/-- Claim C8: the recompute-and-sort step only touches urgencies and
positional order: `calculate_urgencies` preserves, task by task, every
field except `urgency` (and the length), and `sort_by_urgencies` is a
permutation, so the final collection has the input's length and is a
permutation of the input tasks up to their urgency updates. -/
theorem C8_frame_and_permutation (now : ℤ) (ts ts' : List Task)
    (h : calculate_urgencies now ts = some ts') :
    (sort_by_urgencies ts').length = ts.length ∧
    List.Forall₂ (fun t t' => frameOf t' = frameOf t) ts ts' ∧
    ((sort_by_urgencies ts').map frameOf).Perm (ts.map frameOf) := by
  have hf : List.Forall₂ (fun t t' => frameOf t' = frameOf t) ts ts' :=
    (forall2_of_calc h).imp (fun _ _ hc => calcTask_frame hc)
  have hperm : List.Perm (sort_by_urgencies ts') ts' :=
    List.perm_insertionSort sortRel ts'
  refine ⟨?_, hf, ?_⟩
  · rw [hperm.length_eq]
    exact hf.length_eq.symm
  · have hm := hperm.map frameOf
    rw [map_frameOf_eq hf] at hm
    exact hm

theorem C8_frame_and_permutation_witness :
    (sort_by_urgencies [mkTask Status.Inactive (F.fin 4) (some 0) none]).length =
      ([mkTask Status.Inactive (F.fin 3) (some 0) none] : List Task).length ∧
    List.Forall₂ (fun t t' => frameOf t' = frameOf t)
      [mkTask Status.Inactive (F.fin 3) (some 0) none]
      [mkTask Status.Inactive (F.fin 4) (some 0) none] ∧
    ((sort_by_urgencies [mkTask Status.Inactive (F.fin 4) (some 0) none]).map
        frameOf).Perm
      (([mkTask Status.Inactive (F.fin 3) (some 0) none] : List Task).map frameOf) :=
  C8_frame_and_permutation (8 * 86400)
    [mkTask Status.Inactive (F.fin 3) (some 0) none]
    [mkTask Status.Inactive (F.fin 4) (some 0) none]
    (by with_unfolding_all decide)

/-- Claim C9: on a collection in which every task has a `start_time`,
`calculate_urgencies` cannot fail: the `unwrap` is unreachable and all
the remaining (total) arithmetic produces a result for every task, so
the whole recompute returns a value. -/
theorem C9_total_on_wellformed (now : ℤ) (ts : List Task)
    (h : ∀ t ∈ ts, t.start_time.isSome = true) :
    ∃ ts', calculate_urgencies now ts = some ts' := by
  induction ts with
  | nil => exact ⟨[], rfl⟩
  | cons t ts ih =>
      obtain ⟨ts', hts⟩ := ih (fun x hx => h x (List.mem_cons_of_mem _ hx))
      obtain ⟨t', ht⟩ := Option.isSome_iff_exists.mp
        (calcTask_isSome now (h t (List.mem_cons_self _ _)))
      exact ⟨t' :: ts', by simp [calculate_urgencies, ht, hts]⟩

theorem C9_total_on_wellformed_witness :
    ∃ ts', calculate_urgencies 0
      [mkTask Status.Inactive (F.fin 3) (some 0) none,
       mkTask Status.Active (F.fin 3) (some 0) (some 86400),
       mkTask Status.Done (F.fin 0) (some 0) (some 0)] = some ts' :=
  C9_total_on_wellformed 0
    [mkTask Status.Inactive (F.fin 3) (some 0) none,
     mkTask Status.Active (F.fin 3) (some 0) (some 86400),
     mkTask Status.Done (F.fin 0) (some 0) (some 0)]
    (by decide)

/-- Claim C10: every id-addressed operation run with an id at or past
the collection length is rejected by `verify_id`, reports the invalid-id
error, and leaves the collection completely unchanged. -/
theorem C10_invalid_id_rejected (m : TaskManager) (id : ℕ) (nm ds : String)
    (st : Status) (u : F) (dd : ℤ) (h : m.tasks.length ≤ id) :
    verify_id m id = false ∧
    set_task_name m id nm = (m, [ERR_INVALID_ID]) ∧
    set_task_description m id ds = (m, [ERR_INVALID_ID]) ∧
    set_task_status m id st = (m, [ERR_INVALID_ID]) ∧
    set_urgency m id u = (m, [ERR_INVALID_ID]) ∧
    set_due_date m id dd = (m, [ERR_INVALID_ID]) ∧
    remove_task_by_id m id = (m, [ERR_INVALID_ID]) := by
  have hv : verify_id m id = false := by
    simp only [verify_id, decide_eq_false_iff_not, not_lt]
    exact h
  refine ⟨hv, ?_, ?_, ?_, ?_, ?_, ?_⟩ <;>
    simp [set_task_name, set_task_description, set_task_status, set_urgency,
      set_due_date, remove_task_by_id, hv]

theorem C10_invalid_id_rejected_witness :
    verify_id ⟨[mkTask Status.Inactive (F.fin 3) (some 0) none]⟩ 5 = false ∧
    set_task_name ⟨[mkTask Status.Inactive (F.fin 3) (some 0) none]⟩ 5 "x" =
      (⟨[mkTask Status.Inactive (F.fin 3) (some 0) none]⟩, [ERR_INVALID_ID]) ∧
    set_task_description ⟨[mkTask Status.Inactive (F.fin 3) (some 0) none]⟩ 5 "y" =
      (⟨[mkTask Status.Inactive (F.fin 3) (some 0) none]⟩, [ERR_INVALID_ID]) ∧
    set_task_status ⟨[mkTask Status.Inactive (F.fin 3) (some 0) none]⟩ 5
        Status.Active =
      (⟨[mkTask Status.Inactive (F.fin 3) (some 0) none]⟩, [ERR_INVALID_ID]) ∧
    set_urgency ⟨[mkTask Status.Inactive (F.fin 3) (some 0) none]⟩ 5 (F.fin 1) =
      (⟨[mkTask Status.Inactive (F.fin 3) (some 0) none]⟩, [ERR_INVALID_ID]) ∧
    set_due_date ⟨[mkTask Status.Inactive (F.fin 3) (some 0) none]⟩ 5 86400 =
      (⟨[mkTask Status.Inactive (F.fin 3) (some 0) none]⟩, [ERR_INVALID_ID]) ∧
    remove_task_by_id ⟨[mkTask Status.Inactive (F.fin 3) (some 0) none]⟩ 5 =
      (⟨[mkTask Status.Inactive (F.fin 3) (some 0) none]⟩, [ERR_INVALID_ID]) :=
  C10_invalid_id_rejected ⟨[mkTask Status.Inactive (F.fin 3) (some 0) none]⟩
    5 "x" "y" Status.Active (F.fin 1) 86400 (by decide)

end TM
